import Mathlib

/-!
Verification of the two scraper scripts of the repository
(`scrape_pricing.py` and `scrape_reviews.py`) against their
natural-language specification.

The scripts are shallowly embedded below.  Network I/O is modelled by
passing the fetch outcome as an `Except String _` argument (an exception's
string representation, or the fetched payload).  The Python stdlib HTML
tokenizer (`html.parser.HTMLParser`) is external to the repository: the
event stream it produces (start tags, end tags, character data) is taken
as an input, and the repository's `PricingParser` callbacks are embedded
over that stream.  Python strings are modelled as Lean `String`s
(sequences of code points); Python `str.lower`, `str.strip`, slicing and
substring containment map to code-point-list operations (`pyLower`,
`pyStrip`, `pyTake`, `strContains` below).
-/

/-- Boolean test that the first list is a prefix of the second. -/
def charsPrefixOf : List Char → List Char → Bool
  | [], _ => true
  | _ :: _, [] => false
  | a :: as, b :: bs => a == b && charsPrefixOf as bs

/-- Boolean test that the first list occurs contiguously in the second. -/
def charsInfixOf (k : List Char) : List Char → Bool
  | [] => charsPrefixOf k []
  | b :: bs => charsPrefixOf k (b :: bs) || charsInfixOf k bs

/-- Python's substring test `k in hay`. -/
def strContains (hay k : String) : Bool :=
  charsInfixOf k.data hay.data

/-- Python `str.strip()`: drop leading and trailing whitespace code
points (ASCII whitespace suffices for the inputs at hand). -/
def pyStrip (s : String) : String :=
  ⟨((s.data.dropWhile Char.isWhitespace).reverse.dropWhile Char.isWhitespace).reverse⟩

/-- Python `str.lower()` (ASCII case mapping suffices for the inputs at
hand). -/
def pyLower (s : String) : String :=
  ⟨s.data.map Char.toLower⟩

/-- Python `s[:n]`: the first `n` code points. -/
def pyTake (n : Nat) (s : String) : String :=
  ⟨s.data.take n⟩

/-! ## scrape_pricing.py — PricingParser -/

/-- One event of the stdlib HTML tokenizer, as delivered to the
`PricingParser` callbacks.  Attribute names arrive lowercased, as the
stdlib tokenizer does. -/
inductive HTMLToken where
  | startTag (tag : String) (attrs : List (String × String))
  | endTag (tag : String)
  | data (s : String)
deriving Repr, DecidableEq

/-- The mutable state of `PricingParser` (`__init__`). -/
structure PricingParser where
  in_price : Bool := false
  prices : List String := []
  current_text : String := ""
deriving Repr, DecidableEq

/-- The class keywords of `handle_starttag`. -/
def priceClassKeywords : List String :=
  ["price", "cost", "amount", "plan", "tier"]

/-- Python `dict(attrs)` lookup: on duplicate attribute names the last
pair wins. -/
def attrsGet (attrs : List (String × String)) (key : String) : Option String :=
  List.lookup key attrs.reverse

/-- `PricingParser.handle_starttag`. -/
def handleStarttag (p : PricingParser) (_tag : String)
    (attrs : List (String × String)) : PricingParser :=
  let class_name := (attrsGet attrs "class").getD ""
  if priceClassKeywords.any (fun k => strContains (pyLower class_name) k) then
    { p with in_price := true }
  else
    p

/-- `PricingParser.handle_endtag`: records the trimmed accumulated text
when inside a price element, then unconditionally clears the flag and
the text buffer. -/
def handleEndtag (p : PricingParser) (_tag : String) : PricingParser :=
  { in_price := false
    prices :=
      if p.in_price ∧ pyStrip p.current_text ≠ "" then
        p.prices ++ [pyStrip p.current_text]
      else
        p.prices
    current_text := "" }

/-- `PricingParser.handle_data`. -/
def handleData (p : PricingParser) (s : String) : PricingParser :=
  if p.in_price then { p with current_text := p.current_text ++ s } else p

/-- Dispatch one tokenizer event to the parser callbacks. -/
def feedToken (p : PricingParser) : HTMLToken → PricingParser
  | .startTag tag attrs => handleStarttag p tag attrs
  | .endTag tag => handleEndtag p tag
  | .data s => handleData p s

/-- `parser.feed(html)`: the tokenizer drives the callbacks over the
event stream in order. -/
def feedTokens (p : PricingParser) (ts : List HTMLToken) : PricingParser :=
  ts.foldl feedToken p

/-- The event stream of the markup `<span class="price"><b>$10</b></span>`. -/
def nestedPriceMarkup : List HTMLToken :=
  [ .startTag "span" [("class", "price")]
  , .startTag "b" []
  , .data "$10"
  , .endTag "b"
  , .endTag "span" ]

/-- C1: every closing tag clears the `in_price` flag; on the nested
markup `<span class="price"><b>$10</b></span>` exactly one candidate,
"$10", is recorded, already at the inner `</b>`, and the outer `</span>`
records nothing further. -/
theorem pricingParser_reset_on_every_endtag :
    (∀ (p : PricingParser) (tag : String), (handleEndtag p tag).in_price = false)
    ∧ (feedTokens {} (nestedPriceMarkup.take 4)).prices = ["$10"]
    ∧ (feedTokens {} nestedPriceMarkup).prices = ["$10"] := by
  refine ⟨fun p tag => rfl, ?_, ?_⟩ <;> decide

/-! ## scrape_pricing.py — regex extraction

The three `price_patterns` of `scrape_pricing_page`, compiled with
`re.IGNORECASE`, are hand-compiled into matchers over code-point lists.
Each matcher tries to match at the head of the list and returns the
matched characters (original case preserved, as `re.findall` does) and
the remainder.  For these patterns the greedy, committed strategy agrees
with Python's backtracking engine: every optional or starred group is
followed by material that cannot begin inside the characters the group
consumed.  `\d` and `\s` are modelled by ASCII digits and whitespace. -/

/-- Case-insensitive literal word match (`w` given lowercased); returns
the consumed original characters. -/
def matchWordCI (w : List Char) (l : List Char) : Option (List Char × List Char) :=
  match w, l with
  | [], l => some ([], l)
  | _ :: _, [] => none
  | a :: as, b :: bs =>
    if a == b.toLower then
      (matchWordCI as bs).map (fun mr => (b :: mr.1, mr.2))
    else
      none

/-- Ordered alternation of case-insensitive literals, as in
`(?:per|/)` and `(?:month|year|team|user)`. -/
def matchAlts (ws : List (List Char)) (l : List Char) : Option (List Char × List Char) :=
  match ws with
  | [] => none
  | w :: rest =>
    match matchWordCI w l with
    | some mr => some mr
    | none => matchAlts rest l

/-- The optional group `(?:\.\d{2})?`: a dot followed by exactly two
digits, or nothing. -/
def matchDecimal : List Char → (List Char × List Char)
  | '.' :: d1 :: d2 :: rest =>
    if d1.isDigit && d2.isDigit then
      (['.', d1, d2], rest)
    else
      ([], '.' :: d1 :: d2 :: rest)
  | l => ([], l)

/-- The optional group `(?:/mo(?:nth)?)?`, case-insensitive. -/
def matchMoSuffix : List Char → (List Char × List Char)
  | '/' :: m :: o :: rest =>
    if m.toLower == 'm' && o.toLower == 'o' then
      match rest with
      | n :: t :: h :: rest2 =>
        if n.toLower == 'n' && t.toLower == 't' && h.toLower == 'h' then
          (['/', m, o, n, t, h], rest2)
        else
          (['/', m, o], rest)
      | _ => (['/', m, o], rest)
    else
      ([], '/' :: m :: o :: rest)
  | l => ([], l)

/-- First pattern: `\$\d+(?:\.\d{2})?(?:/mo(?:nth)?)?`. -/
def matchDollar : List Char → Option (List Char × List Char)
  | '$' :: rest =>
    let ds := rest.takeWhile Char.isDigit
    let r1 := rest.dropWhile Char.isDigit
    if ds.isEmpty then
      none
    else
      let dec := matchDecimal r1
      let suf := matchMoSuffix dec.2
      some ('$' :: (ds ++ dec.1 ++ suf.1), suf.2)
  | _ => none

/-- Second pattern:
`\$\d+(?:\.\d{2})?\s*(?:per|/)\s*(?:month|year|team|user)`. -/
def matchDollarPer : List Char → Option (List Char × List Char)
  | '$' :: rest =>
    let ds := rest.takeWhile Char.isDigit
    let r1 := rest.dropWhile Char.isDigit
    if ds.isEmpty then
      none
    else
      let dec := matchDecimal r1
      let ws1 := dec.2.takeWhile Char.isWhitespace
      let r3 := dec.2.dropWhile Char.isWhitespace
      match matchAlts [['p', 'e', 'r'], ['/']] r3 with
      | none => none
      | some sep =>
        let ws2 := sep.2.takeWhile Char.isWhitespace
        let r5 := sep.2.dropWhile Char.isWhitespace
        match matchAlts
            [['m', 'o', 'n', 't', 'h'], ['y', 'e', 'a', 'r'],
             ['t', 'e', 'a', 'm'], ['u', 's', 'e', 'r']] r5 with
        | none => none
        | some unit => some ('$' :: (ds ++ dec.1 ++ ws1 ++ sep.1 ++ ws2 ++ unit.1), unit.2)
  | _ => none

/-- Third pattern: `(?:free|Free|FREE)` under `re.IGNORECASE`. -/
def matchFree (l : List Char) : Option (List Char × List Char) :=
  matchWordCI ['f', 'r', 'e', 'e'] l

/-- `re.findall`: scan left to right; at each position try the pattern;
on a match record it and resume after it (non-overlapping), otherwise
advance one character.  Fuelled by the input length; every pattern here
consumes at least one character per match. -/
def reFindAllAux (m : List Char → Option (List Char × List Char)) :
    Nat → List Char → List String
  | 0, _ => []
  | _ + 1, [] => []
  | fuel + 1, c :: cs =>
    match m (c :: cs) with
    | some mr => String.mk mr.1 :: reFindAllAux m fuel mr.2
    | none => reFindAllAux m fuel cs

/-- All matches of one pattern in a string. -/
def reFindAll (m : List Char → Option (List Char × List Char)) (s : String) :
    List String :=
  reFindAllAux m s.data.length s.data

/-- The `regex_prices` accumulation loop: matches of the three patterns,
in pattern order. -/
def regexPrices (html : String) : List String :=
  reFindAll matchDollar html ++ reFindAll matchDollarPer html ++ reFindAll matchFree html

/-! ## scrape_pricing.py — scrape_pricing_page -/

/-- The result dictionary of `scrape_pricing_page`.  Optional fields
model dictionary keys the code sometimes omits: `raw_html_length` and
`error` each appear in only one branch, and `competitor` is attached
later by the command-line driver. -/
structure PriceScrapeResult where
  url : String
  prices_found : List String
  raw_html_length : Option Nat
  success : Bool
  error : Option String
  competitor : Option String := none
deriving Repr, DecidableEq

/-- `scrape_pricing_page`.  The fetch outcome stands for the
`urllib.request.urlopen` block: `.error e` is an exception whose string
representation is `e`; `.ok html` is the decoded body.  `tokens` is the
stdlib tokenizer's event stream for `html`.  `list(set(...))` is
modelled by `List.dedup`; the claims never depend on the (unspecified)
iteration order of a Python set. -/
def scrape_pricing_page (url : String) (fetch : Except String String)
    (tokens : List HTMLToken) : PriceScrapeResult :=
  match fetch with
  | .ok html =>
    let parser := feedTokens {} tokens
    let all_prices := (parser.prices ++ regexPrices html).dedup
    { url := url
      prices_found := all_prices
      raw_html_length := some html.length
      success := true
      error := none }
  | .error e =>
    { url := url
      prices_found := []
      raw_html_length := none
      success := false
      error := some e }

/-- C7: on `"Only $9.99/mo or go FREE"` the regex extraction finds both
`"$9.99/mo"` and `"FREE"`, case preserved. -/
theorem regexPrices_sample :
    "$9.99/mo" ∈ regexPrices "Only $9.99/mo or go FREE"
    ∧ "FREE" ∈ regexPrices "Only $9.99/mo or go FREE" := by
  decide

/-- C8: a successful scrape never returns duplicate strings in
`prices_found`. -/
theorem prices_found_nodup (url html : String) (tokens : List HTMLToken) :
    (scrape_pricing_page url (.ok html) tokens).prices_found.Nodup :=
  List.nodup_dedup _

/-- C3 (counterexample): a failed fetch produces a result without the
`raw_html_length` field, contradicting the claim that every result
carries it. -/
theorem scrapePricing_error_lacks_length :
    (scrape_pricing_page "https://example.com/pricing"
      (.error "unreachable") []).raw_html_length = none := rfl

/-- C3 (amended): a successful result carries `url`, `prices_found`,
`raw_html_length` and `success`; a failed result carries `url`,
`prices_found`, `error` and `success` but no `raw_html_length`. -/
theorem priceScrapeResult_fields (url html e : String) (tokens : List HTMLToken) :
    (scrape_pricing_page url (.ok html) tokens).url = url
    ∧ (scrape_pricing_page url (.ok html) tokens).raw_html_length = some html.length
    ∧ (scrape_pricing_page url (.ok html) tokens).success = true
    ∧ (scrape_pricing_page url (.ok html) tokens).error = none
    ∧ (scrape_pricing_page url (.error e) tokens).url = url
    ∧ (scrape_pricing_page url (.error e) tokens).prices_found = []
    ∧ (scrape_pricing_page url (.error e) tokens).success = false
    ∧ (scrape_pricing_page url (.error e) tokens).error = some e
    ∧ (scrape_pricing_page url (.error e) tokens).raw_html_length = none :=
  ⟨rfl, rfl, rfl, rfl, rfl, rfl, rfl, rfl, rfl⟩

/-- C4: on any fetch exception the result has `success = false`, `error`
the exception's string representation (non-empty when the exception
message is), and empty `prices_found`. -/
theorem scrapePricing_exception (url e : String) (tokens : List HTMLToken)
    (h : e ≠ "") :
    (scrape_pricing_page url (.error e) tokens).success = false
    ∧ (scrape_pricing_page url (.error e) tokens).error = some e
    ∧ (scrape_pricing_page url (.error e) tokens).error ≠ some ""
    ∧ (scrape_pricing_page url (.error e) tokens).prices_found = [] := by
  refine ⟨rfl, rfl, ?_, rfl⟩
  simp [scrape_pricing_page, h]

/-- Witness for C4 at a concrete unreachable-host error. -/
theorem scrapePricing_exception_witness :
    (scrape_pricing_page "https://x.invalid/" (.error "urlopen error") []).success = false
    ∧ (scrape_pricing_page "https://x.invalid/" (.error "urlopen error") []).error
        = some "urlopen error"
    ∧ (scrape_pricing_page "https://x.invalid/" (.error "urlopen error") []).error
        ≠ some ""
    ∧ (scrape_pricing_page "https://x.invalid/" (.error "urlopen error") []).prices_found = [] :=
  scrapePricing_exception "https://x.invalid/" "urlopen error" [] (by decide)

/-! ## scrape_reviews.py — data model and analyze_reviews -/

/-- A review dictionary as consumed by `analyze_reviews`.  Every field
is read with `dict.get`, so each is optional; `scrape_apple_reviews`
happens to populate all five. -/
structure ReviewRec where
  rating : Option Int := none
  title : Option String := none
  content : Option String := none
  author : Option String := none
  version : Option String := none
deriving Repr, DecidableEq

/-- The `rating_distribution` dictionary `{1: _, 2: _, 3: _, 4: _, 5: _}`. -/
structure RatingDist where
  k1 : Nat := 0
  k2 : Nat := 0
  k3 : Nat := 0
  k4 : Nat := 0
  k5 : Nat := 0
deriving Repr, DecidableEq

/-- `if rating in analysis["rating_distribution"]: ... += 1`: bump the
bucket when the rating is a key, otherwise leave the dictionary alone. -/
def bumpDist (d : RatingDist) (r : Int) : RatingDist :=
  if r = 1 then { d with k1 := d.k1 + 1 }
  else if r = 2 then { d with k2 := d.k2 + 1 }
  else if r = 3 then { d with k3 := d.k3 + 1 }
  else if r = 4 then { d with k4 := d.k4 + 1 }
  else if r = 5 then { d with k5 := d.k5 + 1 }
  else d

/-- The analysis dictionary built by `analyze_reviews`.  Python's float
average is modelled as an exact rational; no claim depends on
floating-point rounding. -/
structure ReviewAnalysis where
  total_reviews : Nat
  average_rating : Rat
  rating_distribution : RatingDist
  common_complaints : List String
  common_praises : List String
  feature_requests : List String
deriving Repr, DecidableEq

def complaint_keywords : List String :=
  ["slow", "crash", "bug", "expensive", "confusing", "difficult", "broken",
   "poor", "terrible", "worst"]

def praise_keywords : List String :=
  ["love", "great", "amazing", "easy", "best", "perfect", "excellent", "awesome"]

def feature_keywords : List String :=
  ["wish", "would be nice", "please add", "need", "should have", "missing"]

/-- `content = (review.get("content", "") + " " + review.get("title", "")).lower()`. -/
def reviewHaystack (r : ReviewRec) : String :=
  pyLower ((r.content.getD "") ++ " " ++ (r.title.getD ""))

/-- Whether the complaint loop appends for this review: some complaint
keyword occurs in the haystack and `review.get("rating", 5) <= 3`. -/
def complaintCond (r : ReviewRec) : Bool :=
  complaint_keywords.any
    (fun k => strContains (reviewHaystack r) k && decide (r.rating.getD 5 ≤ 3))

/-- Whether the praise loop appends: some praise keyword occurs and
`review.get("rating", 0) >= 4`. -/
def praiseCond (r : ReviewRec) : Bool :=
  praise_keywords.any
    (fun k => strContains (reviewHaystack r) k && decide (4 ≤ r.rating.getD 0))

/-- Whether the feature loop appends: some feature phrase occurs,
regardless of rating. -/
def featureCond (r : ReviewRec) : Bool :=
  feature_keywords.any (fun k => strContains (reviewHaystack r) k)

/-- `review.get("content", "")[:200]`, the string each loop appends. -/
def contentTrunc (r : ReviewRec) : String :=
  pyTake 200 (r.content.getD "")

/-- One iteration of the categorization loop over a review: each of the
three keyword loops appends at most once (it breaks at the first hit,
and the appended string does not depend on which keyword hit). -/
def categorizeStep (acc : List String × List String × List String)
    (r : ReviewRec) : List String × List String × List String :=
  ( if complaintCond r then acc.1 ++ [contentTrunc r] else acc.1
  , if praiseCond r then acc.2.1 ++ [contentTrunc r] else acc.2.1
  , if featureCond r then acc.2.2 ++ [contentTrunc r] else acc.2.2 )

/-- The categorization loop: `complaints`, `praises`, `features`. -/
def categorize (rs : List ReviewRec) : List String × List String × List String :=
  rs.foldl categorizeStep ([], [], [])

/-- One iteration of the ratings loop: `total_rating += rating` and the
distribution bump, with `review.get("rating", 0)`. -/
def ratingStep (acc : Int × RatingDist) (r : ReviewRec) : Int × RatingDist :=
  (acc.1 + r.rating.getD 0, bumpDist acc.2 (r.rating.getD 0))

/-- The ratings loop. -/
def ratingsFold (rs : List ReviewRec) : Int × RatingDist :=
  rs.foldl ratingStep (0, {})

/-- Round-half-even to an integer, the rounding of Python's `round`. -/
def roundHalfEven (q : Rat) : Int :=
  let f := q.floor
  if q - f < 1/2 then f
  else if 1/2 < q - f then f + 1
  else if f % 2 = 0 then f else f + 1

/-- Python `round(x, 2)` on an exact rational. -/
def pyRound2 (q : Rat) : Rat :=
  (roundHalfEven (q * 100) : Rat) / 100

/-- `analyze_reviews`: the initial analysis dictionary, the early
return on an empty list, the two loops, and the final `[:10]` caps. -/
def analyze_reviews (reviews : List ReviewRec) : ReviewAnalysis :=
  let base : ReviewAnalysis :=
    { total_reviews := reviews.length
      average_rating := 0
      rating_distribution := {}
      common_complaints := []
      common_praises := []
      feature_requests := [] }
  if reviews.isEmpty then base
  else
    let tr := ratingsFold reviews
    let cat := categorize reviews
    { base with
      average_rating := pyRound2 ((tr.1 : Rat) / (reviews.length : Rat))
      rating_distribution := tr.2
      common_complaints := cat.1.take 10
      common_praises := cat.2.1.take 10
      feature_requests := cat.2.2.take 10 }

/-- The categorization loop, run from arbitrary accumulators, appends
exactly the truncated contents of the passing reviews in input order. -/
theorem categorize_foldl_eq (rs : List ReviewRec)
    (acc : List String × List String × List String) :
    rs.foldl categorizeStep acc
      = (acc.1 ++ (rs.filter complaintCond).map contentTrunc,
         acc.2.1 ++ (rs.filter praiseCond).map contentTrunc,
         acc.2.2 ++ (rs.filter featureCond).map contentTrunc) := by
  induction rs generalizing acc with
  | nil => simp
  | cons r rest ih =>
    cases hc : complaintCond r <;> cases hp : praiseCond r <;>
      cases hf : featureCond r <;>
      simp [categorizeStep, hc, hp, hf, ih, List.filter_cons]

/-- The three output lists of `analyze_reviews`, characterized as
filter-map-take over the input in iteration order. -/
theorem analyze_reviews_lists (rs : List ReviewRec) :
    (analyze_reviews rs).common_complaints
        = ((rs.filter complaintCond).map contentTrunc).take 10
    ∧ (analyze_reviews rs).common_praises
        = ((rs.filter praiseCond).map contentTrunc).take 10
    ∧ (analyze_reviews rs).feature_requests
        = ((rs.filter featureCond).map contentTrunc).take 10 := by
  cases rs with
  | nil => simp [analyze_reviews]
  | cons r rest =>
    cases hc : complaintCond r <;> cases hp : praiseCond r <;>
      cases hf : featureCond r <;>
      simp [analyze_reviews, categorize, categorize_foldl_eq, categorizeStep,
        hc, hp, hf, List.filter_cons]

/-- C5: on the empty review list the analysis has zero totals, zero
average, all five distribution buckets zero, and all three categorized
lists empty. -/
theorem analyze_reviews_empty :
    (analyze_reviews []).total_reviews = 0
    ∧ (analyze_reviews []).average_rating = 0
    ∧ (analyze_reviews []).rating_distribution.k1 = 0
    ∧ (analyze_reviews []).rating_distribution.k2 = 0
    ∧ (analyze_reviews []).rating_distribution.k3 = 0
    ∧ (analyze_reviews []).rating_distribution.k4 = 0
    ∧ (analyze_reviews []).rating_distribution.k5 = 0
    ∧ (analyze_reviews []).common_complaints = []
    ∧ (analyze_reviews []).common_praises = []
    ∧ (analyze_reviews []).feature_requests = [] :=
  ⟨rfl, rfl, rfl, rfl, rfl, rfl, rfl, rfl, rfl, rfl⟩

/-- C2: a review whose record lacks a rating never passes the complaint
check (default 5 fails `<= 3`) nor the praise check (default 0 fails
`>= 4`), but still reaches `feature_requests` when a feature phrase
occurs. -/
theorem analyze_reviews_missing_rating (r : ReviewRec) (h : r.rating = none) :
    complaintCond r = false
    ∧ praiseCond r = false
    ∧ (analyze_reviews [r]).common_complaints = []
    ∧ (analyze_reviews [r]).common_praises = []
    ∧ (analyze_reviews [r]).feature_requests
        = if featureCond r then [contentTrunc r] else [] := by
  have h5 : (decide ((5:Int) ≤ 3)) = false := by decide
  have h0 : (decide ((4:Int) ≤ 0)) = false := by decide
  have hc : complaintCond r = false := by
    simp [complaintCond, complaint_keywords, h, h5]
  have hp : praiseCond r = false := by
    simp [praiseCond, praise_keywords, h, h0]
  obtain ⟨h1, h2, h3⟩ := analyze_reviews_lists [r]
  refine ⟨hc, hp, ?_, ?_, ?_⟩
  · rw [h1]; simp [List.filter_cons, hc]
  · rw [h2]; simp [List.filter_cons, hp]
  · rw [h3]; cases hf : featureCond r <;> simp [List.filter_cons, hf]

/-- Witness for C2: a rating-less review mentioning a crash, a praise
word and a wish lands only in `feature_requests`. -/
theorem analyze_reviews_missing_rating_witness :
    ({ content := some "love it but it keeps crashing, wish it synced" } : ReviewRec).rating = none
    ∧ (complaintCond { content := some "love it but it keeps crashing, wish it synced" } = false
      ∧ praiseCond { content := some "love it but it keeps crashing, wish it synced" } = false
      ∧ (analyze_reviews [{ content := some "love it but it keeps crashing, wish it synced" }]).common_complaints = []
      ∧ (analyze_reviews [{ content := some "love it but it keeps crashing, wish it synced" }]).common_praises = []
      ∧ (analyze_reviews [{ content := some "love it but it keeps crashing, wish it synced" }]).feature_requests
          = if featureCond { content := some "love it but it keeps crashing, wish it synced" }
            then [contentTrunc { content := some "love it but it keeps crashing, wish it synced" }]
            else []) :=
  ⟨rfl, analyze_reviews_missing_rating _ rfl⟩

/-- C10: no review can satisfy the complaint check and the praise check
at once: with a rating present, `rating <= 3` and `rating >= 4` exclude
each other; with it absent, the defaults 5 and 0 fail both. -/
theorem complaint_praise_exclusive (r : ReviewRec) :
    complaintCond r = false ∨ praiseCond r = false := by
  by_cases hp : praiseCond r = true
  case neg => exact Or.inr (Bool.eq_false_iff.mpr hp)
  case pos =>
    left
    have h4 : (4:Int) ≤ r.rating.getD 0 := by
      simp only [praiseCond, List.any_eq_true, Bool.and_eq_true,
        decide_eq_true_eq] at hp
      obtain ⟨k, -, -, h⟩ := hp
      exact h
    rcases hr : r.rating with - | n
    · rw [hr] at h4
      simp at h4
    · rw [hr] at h4
      simp only [Option.getD_some] at h4
      rw [Bool.eq_false_iff]
      intro hcc
      simp only [complaintCond, List.any_eq_true, Bool.and_eq_true,
        decide_eq_true_eq] at hcc
      obtain ⟨k, -, -, h3⟩ := hcc
      rw [hr] at h3
      simp only [Option.getD_some] at h3
      omega

/-- C6: each categorized list equals the truncated contents of the
passing reviews in input order, cut to the first ten; hence each list
has at most ten entries, and every stored string is some input review's
content truncated to its first 200 characters. -/
theorem analyze_reviews_caps (rs : List ReviewRec) (s : String)
    (h : s ∈ (analyze_reviews rs).common_complaints
       ∨ s ∈ (analyze_reviews rs).common_praises
       ∨ s ∈ (analyze_reviews rs).feature_requests) :
    (analyze_reviews rs).common_complaints
        = ((rs.filter complaintCond).map contentTrunc).take 10
    ∧ (analyze_reviews rs).common_praises
        = ((rs.filter praiseCond).map contentTrunc).take 10
    ∧ (analyze_reviews rs).feature_requests
        = ((rs.filter featureCond).map contentTrunc).take 10
    ∧ (analyze_reviews rs).common_complaints.length ≤ 10
    ∧ (analyze_reviews rs).common_praises.length ≤ 10
    ∧ (analyze_reviews rs).feature_requests.length ≤ 10
    ∧ s.length ≤ 200
    ∧ ∃ r ∈ rs, s = pyTake 200 (r.content.getD "") := by
  obtain ⟨h1, h2, h3⟩ := analyze_reviews_lists rs
  have hmem : ∃ r ∈ rs, s = pyTake 200 (r.content.getD "") := by
    rcases h with h | h | h
    · rw [h1] at h
      obtain ⟨r, hrf, hs⟩ := List.mem_map.mp (List.mem_of_mem_take h)
      exact ⟨r, (List.mem_filter.mp hrf).1, hs.symm⟩
    · rw [h2] at h
      obtain ⟨r, hrf, hs⟩ := List.mem_map.mp (List.mem_of_mem_take h)
      exact ⟨r, (List.mem_filter.mp hrf).1, hs.symm⟩
    · rw [h3] at h
      obtain ⟨r, hrf, hs⟩ := List.mem_map.mp (List.mem_of_mem_take h)
      exact ⟨r, (List.mem_filter.mp hrf).1, hs.symm⟩
  refine ⟨h1, h2, h3, ?_, ?_, ?_, ?_, hmem⟩
  · rw [h1]; exact List.length_take_le _ _
  · rw [h2]; exact List.length_take_le _ _
  · rw [h3]; exact List.length_take_le _ _
  · obtain ⟨r, -, hs⟩ := hmem
    rw [hs]
    exact List.length_take_le _ _

/-! ## scrape_reviews.py — scrape_apple_reviews -/

/-- One `feed.entry` item.  Each field models a nested `label` lookup:
`none` means the key path is absent and the code's default applies.
`content` is doubly optional because the code first tests
`"content" in entry` (outer layer) and then reads
`entry.get("content", {}).get("label", "")` (inner layer). -/
structure FeedEntry where
  content : Option (Option String) := none
  im_rating : Option String := none
  title : Option String := none
  author : Option String := none
  version : Option String := none
deriving Repr, DecidableEq

/-- Digits-to-number accumulator for `parsePyInt`. -/
def digitsToNat (ds : List Char) : Nat :=
  ds.foldl (fun a c => a * 10 + (c.toNat - '0'.toNat)) 0

/-- Python `int(s)` on a string: strip whitespace, optional sign, one or
more ASCII digits; `none` models the `ValueError` it otherwise raises. -/
def parsePyInt (s : String) : Option Int :=
  match (pyStrip s).data with
  | [] => none
  | '-' :: ds =>
    if ds ≠ [] ∧ ds.all Char.isDigit then some (-(digitsToNat ds : Int)) else none
  | '+' :: ds =>
    if ds ≠ [] ∧ ds.all Char.isDigit then some (digitsToNat ds : Int) else none
  | ds =>
    if ds.all Char.isDigit then some (digitsToNat ds : Int) else none

/-- The rating expression
`int(entry.get("im:rating", {}).get("label", 0))`: with the key path
absent the default is the integer `0` (and `int(0) = 0`); otherwise the
label string is parsed, and a parse failure is an exception. -/
def entryRating (e : FeedEntry) : Option Int :=
  match e.im_rating with
  | none => some 0
  | some s => parsePyInt s

/-- The normalization loop body over the selected entries: entries
without a `"content"` key are skipped; included entries become review
dictionaries; a rating parse failure aborts the whole loop with an
exception (`none`). -/
def buildReviews : List FeedEntry → Option (List ReviewRec)
  | [] => some []
  | e :: es =>
    match e.content with
    | none => buildReviews es
    | some contentLabel =>
      match entryRating e with
      | none => none
      | some n =>
        (buildReviews es).map (fun rest =>
          { rating := some n
            title := some (e.title.getD "")
            content := some (contentLabel.getD "")
            author := some (e.author.getD "")
            version := some (e.version.getD "") } :: rest)

/-- `scrape_apple_reviews`.  The fetch outcome stands for the
`urlopen`/`json.loads` block and the `feed.entry` extraction: `.error e`
is an exception whose message is printed, `.ok entries` the entry list.
The broad `except` returns `[]` both for a fetch failure and for an
exception raised inside the normalization loop. -/
def scrape_apple_reviews (fetch : Except String (List FeedEntry))
    (count : Nat) : List ReviewRec :=
  match fetch with
  | .error _ => []
  | .ok entries =>
    match buildReviews (entries.take count) with
    | none => []
    | some reviews => reviews

/-- Whether normalizing this entry raises: it is included (has a
`"content"` key) and its rating label does not parse as an integer. -/
def entryRaises (e : FeedEntry) : Bool :=
  e.content.isSome && (entryRating e).isNone

/-- A raising entry anywhere in the list aborts the whole loop. -/
theorem buildReviews_eq_none (l : List FeedEntry)
    (h : ∃ e ∈ l, entryRaises e = true) : buildReviews l = none := by
  induction l with
  | nil => simp at h
  | cons e es ih =>
    rcases h with ⟨f, hf, hraise⟩
    rcases List.mem_cons.mp hf with rfl | hmem
    · simp only [entryRaises, Bool.and_eq_true, Option.isSome_iff_exists,
        Option.isNone_iff_eq_none] at hraise
      obtain ⟨⟨c, hc⟩, hrat⟩ := hraise
      simp [buildReviews, hc, hrat]
    · have hnone := ih ⟨f, hmem, hraise⟩
      cases hcont : e.content with
      | none => simpa [buildReviews, hcont] using hnone
      | some c =>
        cases hrat : entryRating e with
        | none => simp [buildReviews, hcont, hrat]
        | some n => simp [buildReviews, hcont, hrat, hnone]

/-- C9: normalization is all-or-nothing: if any entry among the first
`count` has a `"content"` key but a rating label that does not parse as
an integer, the boundary exception handler discards everything and
`scrape_apple_reviews` returns the empty list. -/
theorem scrape_apple_reviews_all_or_nothing (entries : List FeedEntry)
    (count : Nat) (h : ∃ e ∈ entries.take count, entryRaises e = true) :
    scrape_apple_reviews (.ok entries) count = [] := by
  simp only [scrape_apple_reviews, buildReviews_eq_none _ h]

/-- Witness for C9: a well-formed first entry followed by one whose
rating label is `"N/A"` yields the empty list even though the first
entry normalizes fine. -/
theorem scrape_apple_reviews_all_or_nothing_witness :
    scrape_apple_reviews
      (.ok [ { content := some (some "works well"), im_rating := some "5" }
           , { content := some (some "broken"), im_rating := some "N/A" } ]) 2
      = [] :=
  scrape_apple_reviews_all_or_nothing _ 2
    ⟨{ content := some (some "broken"), im_rating := some "N/A" }, by decide, by decide⟩

/-- A concrete input for exercising the categorized-list bounds: one
five-star review whose content holds a praise keyword. -/
def capsSample : List ReviewRec :=
  [{ rating := some 5, content := some "I love this app" }]

/-- Witness for C6 at a concrete praised review. -/
theorem analyze_reviews_caps_witness :
    ("I love this app" ∈ (analyze_reviews capsSample).common_complaints
       ∨ "I love this app" ∈ (analyze_reviews capsSample).common_praises
       ∨ "I love this app" ∈ (analyze_reviews capsSample).feature_requests)
    ∧ ((analyze_reviews capsSample).common_complaints
          = ((capsSample.filter complaintCond).map contentTrunc).take 10
      ∧ (analyze_reviews capsSample).common_praises
          = ((capsSample.filter praiseCond).map contentTrunc).take 10
      ∧ (analyze_reviews capsSample).feature_requests
          = ((capsSample.filter featureCond).map contentTrunc).take 10
      ∧ (analyze_reviews capsSample).common_complaints.length ≤ 10
      ∧ (analyze_reviews capsSample).common_praises.length ≤ 10
      ∧ (analyze_reviews capsSample).feature_requests.length ≤ 10
      ∧ "I love this app".length ≤ 200
      ∧ ∃ r ∈ capsSample, "I love this app" = pyTake 200 (r.content.getD "")) :=
  ⟨by decide, analyze_reviews_caps capsSample "I love this app" (by decide)⟩
